import Mathlib

/-!
Verification of the BMR HC64 protocol client (`custom_components/bmr/client.py`)
against its natural-language specification.

The source is shallowly embedded:
  * Python `datetime` values become rational timestamps (seconds); `timedelta`
    arithmetic becomes rational arithmetic.
  * Python `float` values parsed out of protocol fields become rationals
    (the decimal fields are exact decimals; the identities proved here are
    exact rearrangements, so the rational model is faithful).
  * Fallible code (`raise` / `try ... except`) becomes `Except` / `Option`.
  * The override map `Dict[int, TemperatureOverride]` becomes a function
    `ℤ → Option TemperatureOverride`.
  * Network commands issued during a call are collected in an explicit list;
    calls to `storeOverrides` are recorded in an explicit boolean.
-/

namespace BmrClient

/-- Python whitespace, as stripped by `int()` / `float()` / `str.rstrip()`. -/
def isPySpace (c : Char) : Bool :=
  c = ' ' ∨ c = '\t' ∨ c = '\n' ∨ c = '\x0d' ∨ c = '\x0b' ∨ c = '\x0c'

def isDigitChar (c : Char) : Bool := '0' ≤ c ∧ c ≤ '9'

def digitVal (c : Char) : ℕ := c.toNat - 48

/-- Value of a big-endian list of decimal digit characters. -/
def digitsToNat (l : List Char) : ℕ := l.foldl (fun a c => 10 * a + digitVal c) 0

/-- Strip leading and trailing Python whitespace (as `int()`/`float()` do). -/
def trimWS (l : List Char) : List Char :=
  ((l.dropWhile isPySpace).reverse.dropWhile isPySpace).reverse

/-- Strip trailing Python whitespace (`str.rstrip()`). -/
def rstrip (l : List Char) : List Char :=
  (l.reverse.dropWhile isPySpace).reverse

/-- Python `int(s)` on an unsigned body: nonempty all-digit string. -/
def parseUnsignedInt (l : List Char) : Option ℤ :=
  if l ≠ [] ∧ l.all isDigitChar then some (digitsToNat l) else none

/-- Python `int(s)`: strip whitespace, optional sign, decimal digits.
Returns `none` where CPython raises `ValueError`. -/
def pyInt (l : List Char) : Option ℤ :=
  match trimWS l with
  | '+' :: r => parseUnsignedInt r
  | '-' :: r => (parseUnsignedInt r).map Neg.neg
  | r => parseUnsignedInt r

/-- Python `float(s)` on an unsigned body: `d+`, `d+.d*` or `.d+`
(exponent / inf / nan forms do not occur in the 5-char protocol fields
and are not modelled). -/
def parseUnsignedFloat (l : List Char) : Option ℚ :=
  let intPart := l.takeWhile isDigitChar
  let rest := l.dropWhile isDigitChar
  match rest with
  | [] => if intPart = [] then none else some (digitsToNat intPart)
  | '.' :: frac =>
      if frac.all isDigitChar ∧ (intPart ≠ [] ∨ frac ≠ []) then
        some ((digitsToNat intPart : ℚ) + (digitsToNat frac : ℚ) / 10 ^ frac.length)
      else none
  | _ => none

/-- Python `float(s)`: strip whitespace, optional sign, decimal body.
Returns `none` where CPython raises `ValueError`. -/
def pyFloat (l : List Char) : Option ℚ :=
  match trimWS l with
  | '+' :: r => parseUnsignedFloat r
  | '-' :: r => (parseUnsignedFloat r).map Neg.neg
  | r => parseUnsignedFloat r

/-- Python slice `s[a:b]` on a character list. -/
def slice (s : List Char) (a b : ℕ) : List Char := (s.drop a).take (b - a)

/-- The record produced by `Bmr.getCircuit` (`BmrCircuitData`, client.py 945-959). -/
structure BmrCircuitData where
  id : ℤ
  enabled : Bool
  name : List Char
  temperature : Option ℚ
  target_temperature : Option ℚ
  user_offset : Option ℚ
  max_offset : Option ℚ
  heating : Bool
  warning : ℤ
  cooling : Bool
  low_mode : Bool
  summer_mode : Bool
  target_temperature_raw : Option ℚ
  override_updating : Bool
deriving Repr, DecidableEq

/-- The `re.match` of `getCircuit` (client.py 234-254): fourteen groups, each
`.{n}` for a total of 45 characters anchored at the start; `.` does not match
a newline and `re.match` does not require consuming the whole string. -/
def circuitPatternMatches (s : List Char) : Bool :=
  45 ≤ s.length ∧ (s.take 45).all (fun c => c ≠ '\n')

/-- `bool(int(field))` under `try: ... except ValueError: pass` with a `False`
default (client.py 292-301). -/
def boolField (l : List Char) : Bool :=
  match pyInt l with
  | some n => n ≠ 0
  | none => false

/-- The decode part of `Bmr.getCircuit` (client.py 234-309): overall pattern
match, then per-field parsing.  The `enabled` field is converted by
`bool(int(...))` *outside* of any `try` block (line 266), so its
`ValueError` propagates; the numeric and boolean fields at lines 281-309 are
each parsed inside `try: ... except ValueError: pass` and fall back to the
defaults set at lines 264-279. -/
def decodeCircuit (circuit_id : ℤ) (s : List Char) : Except String BmrCircuitData :=
  if ¬ circuitPatternMatches s then
    .error "Server returned malformed data"
  else
    match pyInt (slice s 0 1) with
    | none => .error "ValueError"
    | some e =>
        .ok { id := circuit_id
              enabled := e ≠ 0
              name := rstrip (slice s 1 14)
              temperature := pyFloat (slice s 14 19)
              target_temperature := pyFloat (slice s 22 27)
              user_offset := pyFloat (slice s 27 32)
              max_offset := pyFloat (slice s 32 36)
              heating := boolField (slice s 36 37)
              warning := (pyInt (slice s 39 42)).getD 0
              cooling := boolField (slice s 44 45)
              low_mode := boolField (slice s 42 43)
              summer_mode := boolField (slice s 43 44)
              target_temperature_raw := pyFloat (slice s 22 27)
              override_updating := false }

/-- `TEMPERATURE_OVERRIDE_CHECK_DELAY` (client.py line 30), in seconds. -/
def TEMPERATURE_OVERRIDE_CHECK_DELAY : ℚ := 300

/-- The client-side override intent record (`TemperatureOverride`,
client.py 33-49).  `__init__` sets `last_set = created_at` and
`disabled_at = None`. -/
structure TemperatureOverride where
  temperature : ℚ
  created_at : ℚ
  last_set : ℚ
  stop_at : Option ℚ
  disabled_at : Option ℚ
deriving Repr, DecidableEq

/-- The override map `Bmr.overrides : Dict[int, TemperatureOverride]`. -/
def Overrides : Type := ℤ → Option TemperatureOverride

/-- `self.overrides[k] = v` / `del self.overrides[k]` (as an update to `none`). -/
def Overrides.set (m : Overrides) (k : ℤ) (v : Option TemperatureOverride) : Overrides :=
  fun k' => if k' = k then v else m k'

/-- A `setManualTemp(circuit_id, new_target, current_target)` call issued to the
device (client.py 141-162); the wire payload it produces is `manualTempParam
circuit_id (new_target - current_target)`. -/
structure ManualTempCmd where
  circuit_id : ℤ
  new_target : ℚ
  current_target : ℚ
deriving Repr, DecidableEq

/-- Outcome of one `getCircuit` read, after decoding: the returned record, the
override map after the read, the `setManualTemp` commands issued during the
read, and whether `storeOverrides` was called. -/
structure StepResult where
  result : BmrCircuitData
  overrides : Overrides
  commands : List ManualTempCmd
  storeCalled : Bool

/-- The override-reconciliation tail of `Bmr.getCircuit` (client.py 311-347).

Mirrors the source exactly:
  * line 311: `target_temperature_raw` is already the decoded target (set in
    `decodeCircuit`);
  * line 312: the whole block is skipped when `skip_override_check` is set,
    when the circuit has no override entry, or when `target_temperature`
    decoded to `None`;
  * lines 316-325: active override (no `stop_at`, or `stop_at` in the future):
    the returned target is substituted; when the device-reported raw target
    differs from the override temperature and `last_set` is more than
    `TEMPERATURE_OVERRIDE_CHECK_DELAY` in the past, `last_set` is stamped and a
    `setManualTemp(cid, T, raw - user_offset)` command is issued.  When
    `user_offset` is `None` the expression `raw - None` raises `TypeError`
    (caught by the `except` at line 345) after `last_set` was already stamped,
    so no command is issued in that case;
  * lines 326-344: expired override: the returned offset is forced to `0` and
    the target restored to raw; on first detection (`disabled_at is None`) a
    zero-offset `setManualTemp(cid, 0, 0)` is issued and `disabled_at` is set
    (with no `storeOverrides` call); once `disabled_at` is more than the check
    delay in the past the entry is deleted and `storeOverrides` is called.

Commands are modelled as issued events; a network failure inside
`setManualTemp` is swallowed by the same `except` and does not change the
state recorded before it. -/
def applyOverrideCheck (now : ℚ) (ovs : Overrides) (cid : ℤ) (skip : Bool)
    (r : BmrCircuitData) : StepResult :=
  if skip then ⟨r, ovs, [], false⟩ else
  match ovs cid, r.target_temperature with
  | some ov, some raw =>
      let r1 := { r with target_temperature := some ov.temperature }
      -- active branch (line 316: `stop_at is None or stop_at > now`)
      let active : StepResult :=
        if raw ≠ ov.temperature ∧ ov.last_set < now - TEMPERATURE_OVERRIDE_CHECK_DELAY then
          let ovs' := ovs.set cid (some { ov with last_set := now })
          match r.user_offset with
          | some off => ⟨r1, ovs', [⟨cid, ov.temperature, raw - off⟩], false⟩
          | none => ⟨r1, ovs', [], false⟩
        else ⟨r1, ovs, [], false⟩
      -- expired branch (line 326: `stop_at <= now`)
      let expired : StepResult :=
        let r2 := { r1 with user_offset := some 0, target_temperature := some raw }
        match ov.disabled_at with
        | none =>
            ⟨r2, ovs.set cid (some { ov with disabled_at := some now }), [⟨cid, 0, 0⟩], false⟩
        | some da =>
            if da < now - TEMPERATURE_OVERRIDE_CHECK_DELAY then
              ⟨r2, ovs.set cid none, [], true⟩
            else ⟨r2, ovs, [], false⟩
      match ov.stop_at with
      | none => active
      | some ts => if now < ts then active else expired
  | _, _ => ⟨r, ovs, [], false⟩

/-- `Bmr.getCircuit` for one decoded response: decode (client.py 234-309)
followed by the override reconciliation (311-347). -/
def getCircuitStep (now : ℚ) (ovs : Overrides) (cid : ℤ) (resp : List Char)
    (skip : Bool) : Except String StepResult :=
  (decodeCircuit cid resp).map (applyOverrideCheck now ovs cid skip)

/-- Outcome of `Bmr.setTemperatureOverride` (client.py 164-179). -/
structure SetOverrideResult where
  overrides : Overrides
  storeCalled : Bool
  commands : List ManualTempCmd

/-- `Bmr.setTemperatureOverride(circuit_id, temperature, duration)`
(client.py 164-179): build the override record (`stop_at = now + duration`, or
`None` when no duration is given), store it in the map, call
`storeOverrides`, then issue one `setManualTemp(circuit_id, temperature)`
command.  That inner call determines its own `current_target` from a
`skip_override_check` read (client.py 143-149); the value it arrives at is
passed in here as `deviceCurrent`. -/
def setTemperatureOverride (now : ℚ) (ovs : Overrides) (cid : ℤ) (temp : ℚ)
    (duration : Option ℚ) (deviceCurrent : ℚ) : SetOverrideResult :=
  let ov : TemperatureOverride :=
    { temperature := temp
      created_at := now
      last_set := now
      stop_at := duration.map (fun d => now + d)
      disabled_at := none }
  ⟨ovs.set cid (some ov), true, [⟨cid, temp, deviceCurrent⟩]⟩

/-- A sequence of `getCircuit` reads of one circuit, threading the override
map and collecting all issued commands; each read is given its time and the
decoded device record. -/
def runReads (cid : ℤ) (ovs : Overrides) : List (ℚ × BmrCircuitData) → Overrides × List ManualTempCmd
  | [] => (ovs, [])
  | (t, r) :: rest =>
      let st := applyOverrideCheck t ovs cid false r
      let (ovs', cmds) := runReads cid st.overrides rest
      (ovs', st.commands ++ cmds)

/-- Digit character for a value `< 16`: `'0'..'9'` then `'A'..'F'`.  Python's
`hex(...)` produces lowercase digits and `bmr_hash` uppercases the whole
output at the end; the composition is these uppercase digits. -/
def digitChar16 (n : ℕ) : Char :=
  if n < 10 then Char.ofNat (48 + n) else Char.ofNat (55 + n)

/-- Big-endian digits of `n` in base `b` (no leading zeros; `[digit 0]` for 0),
as produced by Python `hex(n)[2:]` (base 16) and `"{:d}".format(n)` (base 10). -/
def baseDigits (b : ℕ) (n : ℕ) : List Char :=
  if _hb : b < 2 then []
  else if n < b then [digitChar16 n]
  else baseDigits b (n / b) ++ [digitChar16 (n % b)]
  termination_by n
  decreasing_by
    exact Nat.div_lt_self (by omega) (by omega)

/-- Python `str.zfill(w)` on an unsigned digit string. -/
def zfill (w : ℕ) (l : List Char) : List Char :=
  List.replicate (w - l.length) '0' ++ l

/-- One character's contribution to the day-seeded auth hash
(`bmr_hash`, client.py 81-87): `hex(ord(c) ^ (day << 2))[2:].zfill(2)`,
uppercased. -/
def bmrHashChar (day : ℕ) (c : Char) : List Char :=
  zfill 2 (baseDigits 16 (c.toNat ^^^ (day <<< 2)))

/-- `bmr_hash(value)` (client.py 81-87) with the day of the month explicit:
concatenate the per-character blocks in order. -/
def bmr_hash (day : ℕ) (value : List Char) : List Char :=
  (value.map (bmrHashChar day)).flatten

/-- Truncation of `abs(offset) * 10` to an integer, i.e. Python
`int(abs(offset)*10)` (client.py 151) over the rational model: the argument is
nonnegative, so `int()`'s truncation toward zero is the floor.  (CPython
computes this on IEEE doubles, whose representation error can shift the
truncation by one ulp-induced tenth; the rational model is the exact decimal
reading of the same expression.) -/
def truncTenths (offset : ℚ) : ℕ := (Int.floor (|offset| * 10)).toNat

/-- The `manualTemp` payload built by `Bmr.setManualTemp` (client.py 151):
`"{:02}{}{:03}".format(circuit_id, "-" if offset < 0 else "0",
int(abs(offset)*10))`. -/
def manualTempParam (cid : ℕ) (offset : ℚ) : List Char :=
  zfill 2 (baseDigits 10 cid) ++ (if offset < 0 then ['-'] else ['0'])
    ++ zfill 3 (baseDigits 10 (truncTenths offset))

/-- The offset `setManualTemp` encodes: `new_target - current_target`
(client.py 150). -/
def setManualTempPayload (cid : ℕ) (new_target current_target : ℚ) : List Char :=
  manualTempParam cid (new_target - current_target)

/-- The scheduled (un-overridden) temperature of a returned circuit record, as
the code itself recovers it: `setManualTemp` (client.py 146-147) computes the
device's scheduled target as `target_temperature - user_offset` of a read with
`skip_override_check=True` — and such a read reports
`target_temperature = target_temperature_raw`. -/
def scheduled_temperature (r : BmrCircuitData) : Option ℚ :=
  match r.target_temperature_raw, r.user_offset with
  | some t, some u => some (t - u)
  | _, _ => none

/-- `@backoff.on_exception(backoff.expo, Exception, max_tries=n)`: attempt 0,
then on failure attempt 1, ..., up to `maxTries` attempts in total; the first
success is returned, and after the last allowed attempt fails its error
propagates.  The wrapped call (authenticate + POST + decode) is `attempts i`
for the i-th try; the retry loop is synchronous, so the caller sees nothing
until it returns. -/
def backoffGo (attempts : ℕ → Except String α) : ℕ → ℕ → Except String α
  | _, 0 => .error "backoff: no tries"
  | i, fuel + 1 =>
      match attempts i with
      | .ok a => .ok a
      | .error e => match fuel with
        | 0 => .error e
        | f + 1 => backoffGo attempts (i + 1) (f + 1)

def backoffRun (maxTries : ℕ) (attempts : ℕ → Except String α) : Except String α :=
  backoffGo attempts 0 maxTries

/-- Number of backoff attempts each read operation of `Bmr` is wrapped with,
read off the decorators in client.py: `max_tries=3` on `authenticate` (74),
`getNumCircuits` (111), `getCircuit` (200), `getSummerMode` (452),
`getLowMode` (527), `getHDO` (749) and `getVentilation` (902); every other
read has no `backoff` decorator at all (1 attempt). -/
def readMaxTries : String → ℕ
  | "authenticate" => 3
  | "getNumCircuits" => 3
  | "getCircuit" => 3
  | "getSummerMode" => 3
  | "getLowMode" => 3
  | "getHDO" => 3
  | "getVentilation" => 3
  | _ => 1

/-- `BmrLowModeData` (client.py 962-966). -/
structure BmrLowModeData where
  enabled : Bool
  temperature : ℤ
  start_date : Option ℚ
  end_date : Option ℚ
deriving Repr, DecidableEq

/-- Ventilation reading (`getVentilation`, client.py 903-921). -/
structure VentilationData where
  power : ℤ
  ppm : ℤ
deriving Repr, DecidableEq

/-- `BmrAllData` (client.py 969-974). -/
structure BmrAllData where
  circuits : List BmrCircuitData
  hdo : Bool
  ventilation : VentilationData
  summer_mode : Bool
  low_mode : BmrLowModeData

/-- `Bmr.getAllData` (client.py 923-942): sequentially await the circuit
loop, `getHDO`, `getVentilation`, `getSummerMode` and `getLowMode` — with no
`try`/`except` anywhere in the body — and assemble the snapshot.  Each
argument is the outcome of the corresponding sub-fetch (after its own
backoff, where it has one). -/
def getAllData (circuits : Except String (List BmrCircuitData))
    (hdo : Except String Bool) (vent : Except String VentilationData)
    (summer : Except String Bool) (low : Except String BmrLowModeData) :
    Except String BmrAllData := do
  let c ← circuits
  let h ← hdo
  let v ← vent
  let s ← summer
  let l ← low
  pure ⟨c, h, v, s, l⟩

/-- Membership of the substring `"true"` in a response body
(`"true" in await response.text()`). -/
def containsTrue : List Char → Bool
  | 't' :: 'r' :: 'u' :: 'e' :: _ => true
  | _ :: rest => containsTrue rest
  | [] => false

/-- Transport behaviour visible to `saveManualChange`: whether
`authenticate()` succeeds (after its own retries), and the status and body of
the `saveManualChange` POST. -/
structure ShutterTransport where
  authOk : Bool
  postStatus : ℕ
  postBody : List Char
deriving Repr, DecidableEq

/-- The body of the `try` block of `Bmr.saveManualChange` (client.py 868-896):
the three `assert` range checks (which raise `AssertionError` before any
network traffic), then authenticate, POST, require status 200, and report
whether the body contains `"true"`. -/
def saveManualChangeBody (shutter_id pos tilt : ℤ) (tr : ShutterTransport) :
    Except String Bool :=
  if ¬ (0 ≤ shutter_id ∧ shutter_id ≤ 32) then .error "AssertionError"
  else if ¬ (0 ≤ pos ∧ pos ≤ 100) then .error "AssertionError"
  else if ¬ (0 ≤ tilt ∧ tilt ≤ 100) then .error "AssertionError"
  else if ¬ tr.authOk then .error "auth failed"
  else if tr.postStatus ≠ 200 then .error "Server returned status code"
  else .ok (containsTrue tr.postBody)

/-- The `manualChange` payload computed inside the `try` block
(client.py 873-883): `f"{shutter_id:02d}{bmr_pos:01d}{bmr_tilt:02d}"` with
`bmr_pos` bucketed from `pos` and `bmr_tilt = int((100 - tilt) / 10)`. -/
def manualChangeParam (shutter_id pos tilt : ℤ) : List Char :=
  let bmr_pos : ℕ := if pos > 90 then 0 else if pos > 45 then 3 else if pos > 15 then 2 else 1
  let bmr_tilt : ℕ := ((100 - tilt) / 10).toNat
  zfill 2 (baseDigits 10 shutter_id.toNat) ++ zfill 1 (baseDigits 10 bmr_pos)
    ++ zfill 2 (baseDigits 10 bmr_tilt)

/-- `Bmr.saveManualChange` (client.py 846-899): the whole body is wrapped in
`try: ... except Exception: return False`, so every outcome is a plain
boolean. -/
def saveManualChange (shutter_id pos tilt : ℤ) (tr : ShutterTransport) : Bool :=
  match saveManualChangeBody shutter_id pos tilt tr with
  | .ok b => b
  | .error _ => false

/-- Whether `saveManualChange` issues any network request: the `assert`
checks precede `authenticate()`, so traffic happens exactly when all three
range checks pass. -/
def saveManualChangeIssuesRequest (shutter_id pos tilt : ℤ) : Bool :=
  0 ≤ shutter_id ∧ shutter_id ≤ 32 ∧ 0 ≤ pos ∧ pos ≤ 100 ∧ 0 ≤ tilt ∧ tilt ≤ 100

/-- The empty override map. -/
def emptyOverrides : Overrides := fun _ => none

/-- The example `wholeRoom` response from the `getCircuit` docstring
(client.py 206). -/
def exCircuitResponse : List Char :=
  ("1Pokoj 202 v  021.7+12012.0000.000.0000000000").data

/-- The decode of `exCircuitResponse`. -/
def exCircuitRecord : BmrCircuitData :=
  { id := 1
    enabled := true
    name := ("Pokoj 202 v").data
    temperature := some (217/10)
    target_temperature := some 12
    user_offset := some 0
    max_offset := some 0
    heating := false
    warning := 0
    cooling := false
    low_mode := false
    summer_mode := false
    target_temperature_raw := some 12
    override_updating := false }

/-- A 45-character response whose overall pattern matches but whose `enabled`
byte is not an integer. -/
def badCircuitResponse : List Char := 'X' :: List.replicate 44 '0'

/-- A pattern-matching response in which every tolerated numeric sub-field is
malformed (like the `"00\x00\x00\x00"` and `"-1-1-"` corruptions mentioned at
client.py 263). -/
def exTolerantResponse : List Char :=
  ("1Pokoj 202 v  ab.cd+12-1-1-00\x00\x00\x00abcdX00???2a1").data

/-- The decode of `exTolerantResponse`: every malformed field fell back to
absent/false/zero. -/
def exTolerantRecord : BmrCircuitData :=
  { id := 1
    enabled := true
    name := ("Pokoj 202 v").data
    temperature := none
    target_temperature := none
    user_offset := none
    max_offset := none
    heating := false
    warning := 0
    cooling := true
    low_mode := true
    summer_mode := false
    target_temperature_raw := none
    override_updating := false }

/-- An override created at time 0 for 23 degrees with `stop_at = 30`, not yet
disabled. -/
def c3Ov : TemperatureOverride :=
  { temperature := 23, created_at := 0, last_set := 0, stop_at := some 30, disabled_at := none }

/-- A map holding `c3Ov` for circuit 2. -/
def c3Ovs : Overrides := emptyOverrides.set 2 (some c3Ov)

/-- An override created at time 0 for 21 degrees with `stop_at = 10`, not yet
disabled, held for circuit 1. -/
def c1Ovs : Overrides :=
  emptyOverrides.set 1
    (some { temperature := 21, created_at := 0, last_set := 0, stop_at := some 10,
            disabled_at := none })

/-- An attempt sequence that fails on the first three tries and succeeds from
the fourth on. -/
def failThenOk : ℕ → Except String ℕ :=
  fun i => if i < 3 then .error "boom" else .ok 42

/-- Value of a hex digit character (uppercase), inverse of `digitChar16`. -/
def hexVal16 (c : Char) : ℕ :=
  if c.toNat ≤ 57 then c.toNat - 48 else c.toNat - 55

/-- Value of a big-endian digit-character list in base `b`. -/
def baseVal (b : ℕ) (l : List Char) : ℕ :=
  l.foldl (fun a c => b * a + hexVal16 c) 0

/-- Decidable equality of `Except` outcomes (element-wise). -/
instance {eps : Type} {α : Type} [DecidableEq eps] [DecidableEq α] :
    DecidableEq (Except eps α) := fun a b =>
  match a, b with
  | .ok x, .ok y =>
      if h : x = y then .isTrue (by rw [h]) else .isFalse (by simp [h])
  | .error x, .error y =>
      if h : x = y then .isTrue (by rw [h]) else .isFalse (by simp [h])
  | .ok _, .error _ => .isFalse (by simp)
  | .error _, .ok _ => .isFalse (by simp)

section Theorems

attribute [local semireducible] Rat.sub Rat.add Rat.mul Rat.inv

/-- Helper: projections of a successful circuit decode. -/
lemma decodeCircuit_ok_proj {cid : ℤ} {s : List Char} {r : BmrCircuitData}
    (h : decodeCircuit cid s = .ok r) :
    r.temperature = pyFloat (slice s 14 19) ∧
    r.target_temperature = pyFloat (slice s 22 27) ∧
    r.target_temperature_raw = pyFloat (slice s 22 27) ∧
    r.user_offset = pyFloat (slice s 27 32) ∧
    r.max_offset = pyFloat (slice s 32 36) ∧
    r.heating = boolField (slice s 36 37) ∧
    r.cooling = boolField (slice s 44 45) ∧
    r.low_mode = boolField (slice s 42 43) ∧
    r.summer_mode = boolField (slice s 43 44) ∧
    r.warning = (pyInt (slice s 39 42)).getD 0 := by
  unfold decodeCircuit at h
  cases hp : circuitPatternMatches s with
  | false => rw [hp] at h; simp at h
  | true =>
      rw [hp] at h
      cases hpi : pyInt (slice s 0 1) with
      | none => rw [hpi] at h; simp at h
      | some e =>
          rw [hpi] at h
          simp at h
          subst h
          exact ⟨rfl, rfl, rfl, rfl, rfl, rfl, rfl, rfl, rfl, rfl⟩

/-- Helper: a circuit decode succeeds exactly when the overall pattern matches
and the `enabled` byte parses as an integer. -/
lemma decodeCircuit_ok_iff {cid : ℤ} {s : List Char} :
    (∃ r, decodeCircuit cid s = .ok r) ↔
      (circuitPatternMatches s = true ∧ (pyInt (slice s 0 1)).isSome = true) := by
  unfold decodeCircuit
  cases hp : circuitPatternMatches s <;> cases hpi : pyInt (slice s 0 1) <;>
    simp [hp, hpi]

/-- C2: the claim, as stated, is false: `getAllData` has no per-field fault
isolation.  At this concrete input the HDO sub-fetch fails and the whole
snapshot is the propagated error, not a snapshot with an "unknown" HDO
field. -/
theorem C2_counterexample :
    getAllData (.ok []) (.error "HDO fetch failed") (.ok ⟨0, 0⟩) (.ok false)
        (.ok ⟨false, 0, none, none⟩)
      = .error "HDO fetch failed" := rfl

/-- C2 (amended): `getAllData` returns a snapshot exactly when every one of
its sub-fetches succeeds; a failing sub-fetch propagates as the error of the
whole call (here: a failing HDO fetch after the circuits succeeded), rather
than being replaced by an "unknown" field value. -/
theorem C2_getAllData_propagates (circuits : Except String (List BmrCircuitData))
    (h : Except String Bool) (v : Except String VentilationData)
    (s : Except String Bool) (l : Except String BmrLowModeData) :
    ((getAllData circuits h v s l).isOk = true ↔
      (circuits.isOk = true ∧ h.isOk = true ∧ v.isOk = true ∧
        s.isOk = true ∧ l.isOk = true)) ∧
    (∀ cs e, circuits = .ok cs → h = .error e →
      getAllData circuits h v s l = .error e) := by
  cases circuits <;> cases h <;> cases v <;> cases s <;> cases l <;>
    simp [getAllData, Except.isOk, Except.toBool, Except.bind, bind, pure, Except.pure]

/-- C2 witness: the amended theorem at a concrete input. -/
theorem C2_witness :
    getAllData (.ok [exCircuitRecord]) (.error "boom") (.ok ⟨1, 400⟩) (.ok true)
        (.ok ⟨true, 10, none, none⟩)
      = .error "boom" :=
  (C2_getAllData_propagates _ _ _ _ _).2 [exCircuitRecord] "boom" rfl rfl

/-- C4: the claim, as stated, is false: this 45-character response matches the
overall pattern, yet the decode fails, because the `enabled` byte is converted
by `bool(int(...))` outside of any `try` block (client.py 266). -/
theorem C4_counterexample :
    circuitPatternMatches badCircuitResponse = true ∧
    (decodeCircuit 1 badCircuitResponse).isOk = false := by decide

/-- C4 (amended): the circuit decode fails exactly when the overall pattern
fails to match or the `enabled` byte fails to parse as an integer; every
*other* sub-field whose text fails to parse is tolerated independently,
leaving that field at the parser's fallback (absent, false, or zero), and the
decode as a whole still succeeds. -/
theorem C4_decode_tolerance (cid : ℤ) (s : List Char) :
    ((∃ r, decodeCircuit cid s = .ok r) ↔
      (circuitPatternMatches s = true ∧ (pyInt (slice s 0 1)).isSome = true)) ∧
    (∀ r, decodeCircuit cid s = .ok r →
      r.temperature = pyFloat (slice s 14 19) ∧
      r.target_temperature = pyFloat (slice s 22 27) ∧
      r.user_offset = pyFloat (slice s 27 32) ∧
      r.max_offset = pyFloat (slice s 32 36) ∧
      r.heating = boolField (slice s 36 37) ∧
      r.cooling = boolField (slice s 44 45) ∧
      r.low_mode = boolField (slice s 42 43) ∧
      r.summer_mode = boolField (slice s 43 44) ∧
      r.warning = (pyInt (slice s 39 42)).getD 0) := by
  refine ⟨decodeCircuit_ok_iff, fun r h => ?_⟩
  obtain ⟨h1, h2, -, h4, h5, h6, h7, h8, h9, h10⟩ := decodeCircuit_ok_proj h
  exact ⟨h1, h2, h4, h5, h6, h7, h8, h9, h10⟩

/-- C4 witness: the amended theorem applied to a concrete response in which
every tolerated numeric sub-field is malformed; the decode still succeeds and
each such field is absent/false/zero. -/
theorem C4_witness :
    exTolerantRecord.temperature = pyFloat (slice exTolerantResponse 14 19) ∧
    exTolerantRecord.target_temperature = pyFloat (slice exTolerantResponse 22 27) ∧
    exTolerantRecord.user_offset = pyFloat (slice exTolerantResponse 27 32) ∧
    exTolerantRecord.max_offset = pyFloat (slice exTolerantResponse 32 36) ∧
    exTolerantRecord.heating = boolField (slice exTolerantResponse 36 37) ∧
    exTolerantRecord.cooling = boolField (slice exTolerantResponse 44 45) ∧
    exTolerantRecord.low_mode = boolField (slice exTolerantResponse 42 43) ∧
    exTolerantRecord.summer_mode = boolField (slice exTolerantResponse 43 44) ∧
    exTolerantRecord.warning = (pyInt (slice exTolerantResponse 39 42)).getD 0 :=
  (C4_decode_tolerance 1 exTolerantResponse).2 exTolerantRecord (by rfl)

/-- C10: `saveManualChange` never raises: its entire body sits inside
`try: ... except Exception: return False`, so the model is a total boolean
function.  Out-of-range `shutter_id`/`pos`/`tilt` fail the `assert`s before
any network traffic and yield `False` with no request issued; a failed
authentication or a non-200 status also yields `False`; `True` is returned
only for a 200 response whose body contains `"true"`. -/
theorem C10_saveManualChange_total (sid pos tilt : ℤ) (tr : ShutterTransport) :
    (¬ (0 ≤ sid ∧ sid ≤ 32 ∧ 0 ≤ pos ∧ pos ≤ 100 ∧ 0 ≤ tilt ∧ tilt ≤ 100) →
      saveManualChange sid pos tilt tr = false ∧
      saveManualChangeIssuesRequest sid pos tilt = false) ∧
    (tr.authOk = false → saveManualChange sid pos tilt tr = false) ∧
    (tr.postStatus ≠ 200 → saveManualChange sid pos tilt tr = false) ∧
    (saveManualChange sid pos tilt tr = true →
      tr.authOk = true ∧ tr.postStatus = 200 ∧ containsTrue tr.postBody = true) := by
  unfold saveManualChange saveManualChangeBody saveManualChangeIssuesRequest
  split_ifs with h1 h2 h3 h4 h5 <;> simp_all

/-- C10 witness: a shutter id outside [0,32] yields `False` with no request
issued. -/
theorem C10_witness :
    saveManualChange 33 0 0 ⟨true, 200, []⟩ = false ∧
    saveManualChangeIssuesRequest 33 0 0 = false :=
  (C10_saveManualChange_total 33 0 0 ⟨true, 200, []⟩).1 (by decide)

/-- C8: the claim, as stated, is false on two counts: the backoff decorators
in client.py use `max_tries=3`, not 5 (so a call whose first three attempts
fail propagates the failure even though a 4th attempt would have succeeded),
and not every remote read is wrapped at all (`getSchedules` has no backoff
decorator). -/
theorem C8_counterexample :
    readMaxTries "getCircuit" = 3 ∧ readMaxTries "getCircuit" ≠ 5 ∧
    readMaxTries "getSchedules" = 1 ∧
    backoffRun 3 failThenOk = .error "boom" ∧
    backoffRun 5 failThenOk = .ok 42 :=
  ⟨by decide, by decide, by decide, rfl, rfl⟩

/-- C8 (amended): the reads `getCircuit`, `getNumCircuits`, `getSummerMode`,
`getLowMode`, `getHDO`, `getVentilation` (and `authenticate`) are wrapped in
an exponential-backoff retry of up to 3 attempts around the whole remote
call; the other reads are not wrapped.  The retry is synchronous: the result
is a success as soon as some attempt succeeds, and a failure propagates to
the caller only after all 3 attempts have failed — an error outcome implies
all three attempts errored. -/
theorem C8_retry_policy :
    (readMaxTries "authenticate" = 3 ∧ readMaxTries "getNumCircuits" = 3 ∧
     readMaxTries "getCircuit" = 3 ∧ readMaxTries "getSummerMode" = 3 ∧
     readMaxTries "getLowMode" = 3 ∧ readMaxTries "getHDO" = 3 ∧
     readMaxTries "getVentilation" = 3 ∧
     readMaxTries "getCircuitNames" = 1 ∧ readMaxTries "getSchedules" = 1 ∧
     readMaxTries "getSchedule" = 1 ∧ readMaxTries "getSummerModeAssignments" = 1 ∧
     readMaxTries "getLowModeAssignments" = 1 ∧ readMaxTries "getCircuitSchedules" = 1 ∧
     readMaxTries "getNumOfRollerShutters" = 1 ∧ readMaxTries "getWholeRollerShutter" = 1) ∧
    (∀ (attempts : ℕ → Except String ℕ) (e0 e1 e2 : String),
      attempts 0 = .error e0 → attempts 1 = .error e1 → attempts 2 = .error e2 →
      backoffRun 3 attempts = .error e2) ∧
    (∀ (attempts : ℕ → Except String ℕ) (e : String),
      backoffRun 3 attempts = .error e →
      ∃ e0 e1, attempts 0 = .error e0 ∧ attempts 1 = .error e1 ∧ attempts 2 = .error e) ∧
    (∀ (attempts : ℕ → Except String ℕ) (a : ℕ),
      attempts 0 = .ok a → backoffRun 3 attempts = .ok a) := by
  refine ⟨by decide, ?_, ?_, ?_⟩
  · intro attempts e0 e1 e2 h0 h1 h2
    simp [backoffRun, backoffGo, h0, h1, h2]
  · intro attempts e h
    cases h0 : attempts 0 with
    | ok a => simp [backoffRun, backoffGo, h0] at h
    | error e0 =>
        cases h1 : attempts 1 with
        | ok a => simp [backoffRun, backoffGo, h0, h1] at h
        | error e1 =>
            cases h2 : attempts 2 with
            | ok a => simp [backoffRun, backoffGo, h0, h1, h2] at h
            | error e2 =>
                simp [backoffRun, backoffGo, h0, h1, h2] at h
                subst h
                exact ⟨e0, e1, rfl, rfl, rfl⟩
  · intro attempts a h0
    simp [backoffRun, backoffGo, h0]

/-- C8 witness: the amended retry semantics at a concrete attempt sequence
whose first three attempts all fail. -/
theorem C8_witness : backoffRun 3 failThenOk = .error "boom" :=
  (C8_retry_policy).2.1 failThenOk "boom" "boom" "boom" rfl rfl rfl

/-- Helper: reading the key just written / just deleted. -/
lemma Overrides.get_set_self (m : Overrides) (k : ℤ) (v : Option TemperatureOverride) :
    m.set k v k = v := by simp [Overrides.set]

/-- Helper: a read of a circuit with no override entry leaves everything
untouched and issues nothing. -/
lemma applyOverrideCheck_no_override {now : ℚ} {ovs : Overrides} {cid : ℤ}
    {r : BmrCircuitData} (hno : ovs cid = none) :
    applyOverrideCheck now ovs cid false r = ⟨r, ovs, [], false⟩ := by
  unfold applyOverrideCheck
  cases ht : r.target_temperature <;> simp [hno, ht]

/-- C5: for a record produced by a read with no active override for the
circuit, the returned `target_temperature` is the device-reported raw target,
and it equals the scheduled temperature plus the user offset — where the
scheduled temperature is recovered exactly as `setManualTemp` (client.py
146-147) recovers it, as `target_temperature_raw - user_offset`. -/
theorem C5_target_invariant (now : ℚ) (ovs : Overrides) (cid : ℤ) (s : List Char)
    (r : BmrCircuitData) (hd : decodeCircuit cid s = .ok r) (hno : ovs cid = none) :
    (applyOverrideCheck now ovs cid false r).result.target_temperature
      = (applyOverrideCheck now ovs cid false r).result.target_temperature_raw ∧
    (∀ sch u,
      scheduled_temperature (applyOverrideCheck now ovs cid false r).result = some sch →
      (applyOverrideCheck now ovs cid false r).result.user_offset = some u →
      (applyOverrideCheck now ovs cid false r).result.target_temperature = some (sch + u)) := by
  rw [applyOverrideCheck_no_override hno]
  obtain ⟨-, h2, h3, -⟩ := decodeCircuit_ok_proj hd
  refine ⟨by rw [h2, h3], fun sch u hsch hu => ?_⟩
  cases hraw : r.target_temperature_raw with
  | none => rw [scheduled_temperature, hraw] at hsch; simp at hsch
  | some t =>
      rw [scheduled_temperature, hraw, hu] at hsch
      simp only [Option.some.injEq] at hsch
      rw [h2, ← h3, hraw]
      rw [← hsch]
      ring_nf

/-- C5 witness: the docstring example response, read with an empty override
map. -/
theorem C5_witness :
    (applyOverrideCheck 0 emptyOverrides 1 false exCircuitRecord).result.target_temperature
      = (applyOverrideCheck 0 emptyOverrides 1 false exCircuitRecord).result.target_temperature_raw ∧
    (applyOverrideCheck 0 emptyOverrides 1 false exCircuitRecord).result.target_temperature
      = some (12 + 0) := by
  have h := C5_target_invariant 0 emptyOverrides 1 exCircuitResponse exCircuitRecord
    (by decide) rfl
  exact ⟨h.1, h.2 12 0 (by decide) (by decide)⟩

/-- C3: the claim, as stated, is false: the disable transition does not
persist.  At this concrete input the override for circuit 2 has expired and
the read sets `disabled_at` — a mutation the claim says is followed by a
store write — yet `storeOverrides` is not called. -/
theorem C3_counterexample :
    (applyOverrideCheck 50 c3Ovs 2 false exCircuitRecord).storeCalled = false ∧
    (applyOverrideCheck 50 c3Ovs 2 false exCircuitRecord).overrides 2
      = some { temperature := 23, created_at := 0, last_set := 0,
               stop_at := some 30, disabled_at := some 50 } := by
  constructor <;> decide

/-- C3 (amended): the override store is written after an override is created
by `setTemperatureOverride` and after an entry is deleted at the end of the
grace period, and at no other point of the reconciliation: during a
`getCircuit` read, `storeOverrides` is called exactly when the circuit's
entry existed and was deleted by that read — in particular not when only
`last_set` is stamped and not when `disabled_at` is first set. -/
theorem C3_store_policy :
    (∀ (now : ℚ) (ovs : Overrides) (cid : ℤ) (temp : ℚ) (dur : Option ℚ) (cur : ℚ),
      (setTemperatureOverride now ovs cid temp dur cur).storeCalled = true) ∧
    (∀ (now : ℚ) (ovs : Overrides) (cid : ℤ) (skip : Bool) (r : BmrCircuitData),
      ((applyOverrideCheck now ovs cid skip r).storeCalled = true ↔
        ((ovs cid).isSome = true ∧
         (applyOverrideCheck now ovs cid skip r).overrides cid = none))) := by
  refine ⟨fun _ _ _ _ _ _ => rfl, fun now ovs cid skip r => ?_⟩
  cases skip with
  | true => cases hov : ovs cid <;> simp [applyOverrideCheck, hov]
  | false =>
      cases hov : ovs cid with
      | none => cases ht : r.target_temperature <;> simp [applyOverrideCheck, hov, ht]
      | some ov =>
          cases ht : r.target_temperature with
          | none => simp [applyOverrideCheck, hov, ht]
          | some raw =>
              cases hst : ov.stop_at with
              | none =>
                  by_cases hc : raw ≠ ov.temperature ∧
                      ov.last_set < now - TEMPERATURE_OVERRIDE_CHECK_DELAY
                  · cases hoff : r.user_offset <;>
                      simp [applyOverrideCheck, hov, ht, hst, hc, hoff, Overrides.set]
                  · simp [applyOverrideCheck, hov, ht, hst, hc]
              | some ts =>
                  by_cases hlt : now < ts
                  · by_cases hc : raw ≠ ov.temperature ∧
                        ov.last_set < now - TEMPERATURE_OVERRIDE_CHECK_DELAY
                    · cases hoff : r.user_offset <;>
                        simp [applyOverrideCheck, hov, ht, hst, hlt, hc, hoff, Overrides.set]
                    · simp [applyOverrideCheck, hov, ht, hst, hlt, hc]
                  · cases hda : ov.disabled_at with
                    | none =>
                        simp [applyOverrideCheck, hov, ht, hst, hlt, hda, Overrides.set]
                    | some da =>
                        by_cases hgr : da < now - TEMPERATURE_OVERRIDE_CHECK_DELAY
                        · simp [applyOverrideCheck, hov, ht, hst, hlt, hda, hgr, Overrides.set]
                        · simp [applyOverrideCheck, hov, ht, hst, hlt, hda, hgr]

/-- Helper: a read under a non-expired override whose `last_set` is within the
check delay issues nothing and leaves the map unchanged. -/
lemma applyOverrideCheck_active_noop {now : ℚ} {ovs : Overrides} {cid : ℤ}
    {ov : TemperatureOverride} {r : BmrCircuitData}
    (hov : ovs cid = some ov) (hstop : ov.stop_at = none)
    (hnc : ¬ ov.last_set < now - TEMPERATURE_OVERRIDE_CHECK_DELAY) :
    (applyOverrideCheck now ovs cid false r).commands = [] ∧
    (applyOverrideCheck now ovs cid false r).overrides = ovs := by
  cases ht : r.target_temperature with
  | none => simp [applyOverrideCheck, hov, ht]
  | some raw =>
      have h2 : ¬ (raw ≠ ov.temperature ∧
          ov.last_set < now - TEMPERATURE_OVERRIDE_CHECK_DELAY) := fun h => hnc h.2
      simp [applyOverrideCheck, hov, ht, hstop, h2]

/-- Helper: if a read under a never-expiring override issued any command, then
the raw target differed from the override temperature, the check delay had
elapsed since `last_set`, only `last_set` was stamped, and nothing was
persisted. -/
lemma applyOverrideCheck_active_cmd {now : ℚ} {ovs : Overrides} {cid : ℤ}
    {ov : TemperatureOverride} {r : BmrCircuitData}
    (hov : ovs cid = some ov) (hstop : ov.stop_at = none)
    (hcmd : (applyOverrideCheck now ovs cid false r).commands ≠ []) :
    ∃ raw, r.target_temperature = some raw ∧ raw ≠ ov.temperature ∧
      ov.last_set < now - TEMPERATURE_OVERRIDE_CHECK_DELAY ∧
      (applyOverrideCheck now ovs cid false r).storeCalled = false ∧
      (applyOverrideCheck now ovs cid false r).overrides cid
        = some { ov with last_set := now } := by
  cases ht : r.target_temperature with
  | none => exact absurd (by simp [applyOverrideCheck, hov, ht]) hcmd
  | some raw =>
      by_cases hc : raw ≠ ov.temperature ∧
          ov.last_set < now - TEMPERATURE_OVERRIDE_CHECK_DELAY
      · cases hoff : r.user_offset with
        | none => exact absurd (by simp [applyOverrideCheck, hov, ht, hstop, hc, hoff]) hcmd
        | some off =>
            exact ⟨raw, rfl, hc.1, hc.2,
              by simp [applyOverrideCheck, hov, ht, hstop, hc, hoff],
              by simp [applyOverrideCheck, hov, ht, hstop, hc, hoff, Overrides.set]⟩
      · exact absurd (by simp [applyOverrideCheck, hov, ht, hstop, hc]) hcmd

/-- C1: a read of a circuit whose override has `stop_at` in the past issues
exactly one zero-offset command (`setManualTemp(cid, 0, 0)`) and sets the
override's `disabled_at` to the read time; any further read within
`TEMPERATURE_OVERRIDE_CHECK_DELAY` of `disabled_at` issues no command and
leaves the map unchanged; the first read after that grace window deletes the
entry from the override map. -/
theorem C1_override_expiry (now1 : ℚ) (ovs : Overrides) (cid : ℤ)
    (ov : TemperatureOverride) (ts : ℚ) (r1 : BmrCircuitData) (raw1 : ℚ)
    (hov : ovs cid = some ov) (hstop : ov.stop_at = some ts) (hts : ts ≤ now1)
    (hdis : ov.disabled_at = none) (hr1 : r1.target_temperature = some raw1) :
    (applyOverrideCheck now1 ovs cid false r1).commands = [⟨cid, 0, 0⟩] ∧
    (applyOverrideCheck now1 ovs cid false r1).overrides cid
      = some { ov with disabled_at := some now1 } ∧
    (∀ now2 r2, now1 ≤ now2 → now2 - now1 ≤ TEMPERATURE_OVERRIDE_CHECK_DELAY →
      (applyOverrideCheck now2 (applyOverrideCheck now1 ovs cid false r1).overrides
          cid false r2).commands = [] ∧
      (applyOverrideCheck now2 (applyOverrideCheck now1 ovs cid false r1).overrides
          cid false r2).overrides
        = (applyOverrideCheck now1 ovs cid false r1).overrides) ∧
    (∀ now3 r3 raw3, r3.target_temperature = some raw3 →
      now1 + TEMPERATURE_OVERRIDE_CHECK_DELAY < now3 →
      (applyOverrideCheck now3 (applyOverrideCheck now1 ovs cid false r1).overrides
          cid false r3).overrides cid = none ∧
      (applyOverrideCheck now3 (applyOverrideCheck now1 ovs cid false r1).overrides
          cid false r3).storeCalled = true ∧
      (applyOverrideCheck now3 (applyOverrideCheck now1 ovs cid false r1).overrides
          cid false r3).commands = []) := by
  have hD : (0 : ℚ) ≤ TEMPERATURE_OVERRIDE_CHECK_DELAY := by
    norm_num [TEMPERATURE_OVERRIDE_CHECK_DELAY]
  obtain ⟨Tq, ca, ls, sa, da⟩ := ov
  replace hstop : sa = some ts := hstop
  replace hdis : da = none := hdis
  subst hstop
  subst hdis
  have hlt1 : ¬ now1 < ts := not_lt.mpr hts
  have hm1 : (applyOverrideCheck now1 ovs cid false r1).overrides
      = ovs.set cid (some ⟨Tq, ca, ls, some ts, some now1⟩) := by
    simp [applyOverrideCheck, hov, hr1, hlt1]
  refine ⟨by simp [applyOverrideCheck, hov, hr1, hlt1],
    by rw [hm1]; exact Overrides.get_set_self _ _ _, ?_, ?_⟩
  · intro now2 r2 h21 h22
    rw [hm1]
    have hov2 : (ovs.set cid (some ⟨Tq, ca, ls, some ts, some now1⟩)) cid
        = some ⟨Tq, ca, ls, some ts, some now1⟩ := Overrides.get_set_self _ _ _
    have hlt2 : ¬ now2 < ts := not_lt.mpr (hts.trans h21)
    have hgr : ¬ now1 < now2 - TEMPERATURE_OVERRIDE_CHECK_DELAY := by
      intro h; exact absurd h22 (by linarith)
    cases ht2 : r2.target_temperature with
    | none => simp [applyOverrideCheck, hov2, ht2]
    | some raw2 => simp [applyOverrideCheck, hov2, ht2, hlt2, hgr]
  · intro now3 r3 raw3 hr3 h33
    rw [hm1]
    have hov3 : (ovs.set cid (some ⟨Tq, ca, ls, some ts, some now1⟩)) cid
        = some ⟨Tq, ca, ls, some ts, some now1⟩ := Overrides.get_set_self _ _ _
    have hlt3 : ¬ now3 < ts := not_lt.mpr (by linarith)
    have hgr : now1 < now3 - TEMPERATURE_OVERRIDE_CHECK_DELAY := by linarith
    refine ⟨?_, ?_, ?_⟩ <;>
      simp [applyOverrideCheck, hov3, hr3, hlt3, hgr, Overrides.set]

/-- C1 witness: an override for circuit 1 that expired at time 10, read at
times 20 (expiry detection), 100 (inside the grace window) and 400 (after the
grace window). -/
theorem C1_witness :
    (applyOverrideCheck 20 c1Ovs 1 false exCircuitRecord).commands = [⟨1, 0, 0⟩] ∧
    (applyOverrideCheck 20 c1Ovs 1 false exCircuitRecord).overrides 1
      = some { temperature := 21, created_at := 0, last_set := 0, stop_at := some 10,
               disabled_at := some 20 } ∧
    (applyOverrideCheck 100 (applyOverrideCheck 20 c1Ovs 1 false exCircuitRecord).overrides
        1 false exCircuitRecord).commands = [] ∧
    (applyOverrideCheck 400 (applyOverrideCheck 20 c1Ovs 1 false exCircuitRecord).overrides
        1 false exCircuitRecord).overrides 1 = none ∧
    (applyOverrideCheck 400 (applyOverrideCheck 20 c1Ovs 1 false exCircuitRecord).overrides
        1 false exCircuitRecord).storeCalled = true := by
  have h := C1_override_expiry 20 c1Ovs 1
    { temperature := 21, created_at := 0, last_set := 0, stop_at := some 10,
      disabled_at := none } 10 exCircuitRecord 12
    (by decide) (by decide) (by decide) (by decide) (by decide)
  exact ⟨h.1, h.2.1, (h.2.2.1 100 exCircuitRecord (by decide) (by decide)).1,
    (h.2.2.2 400 exCircuitRecord 12 (by decide) (by decide)).1,
    (h.2.2.2 400 exCircuitRecord 12 (by decide) (by decide)).2.1⟩

/-- C7: `setTemperatureOverride(cid, T)` with no duration itself issues
exactly one offset-set command; every subsequent `getCircuit` read within
`TEMPERATURE_OVERRIDE_CHECK_DELAY` of the creation issues no additional
command and leaves the override map unchanged (so at most one command is sent
in that window); and a read issues a re-set command only when the device's
reported raw target differs from `T` and more than the check delay has
elapsed since `last_set` — in which case only `last_set` is stamped to the
read time and nothing is persisted. -/
theorem C7_override_rate_limit (t0 : ℚ) (ovs : Overrides) (cid : ℤ) (T cur : ℚ) :
    (setTemperatureOverride t0 ovs cid T none cur).commands.length = 1 ∧
    (∀ reads : List (ℚ × BmrCircuitData),
      (∀ p ∈ reads, p.1 ≤ t0 + TEMPERATURE_OVERRIDE_CHECK_DELAY) →
      (runReads cid (setTemperatureOverride t0 ovs cid T none cur).overrides reads).2 = [] ∧
      (runReads cid (setTemperatureOverride t0 ovs cid T none cur).overrides reads).1
        = (setTemperatureOverride t0 ovs cid T none cur).overrides) ∧
    (∀ (now : ℚ) (r : BmrCircuitData),
      (applyOverrideCheck now (setTemperatureOverride t0 ovs cid T none cur).overrides
          cid false r).commands ≠ [] →
      ∃ raw, r.target_temperature = some raw ∧ raw ≠ T ∧
        TEMPERATURE_OVERRIDE_CHECK_DELAY ≤ now - t0 ∧
        (applyOverrideCheck now (setTemperatureOverride t0 ovs cid T none cur).overrides
            cid false r).storeCalled = false ∧
        (applyOverrideCheck now (setTemperatureOverride t0 ovs cid T none cur).overrides
            cid false r).overrides cid
          = some { temperature := T, created_at := t0, last_set := now,
                   stop_at := none, disabled_at := none }) := by
  have hm : (setTemperatureOverride t0 ovs cid T none cur).overrides
      = ovs.set cid (some ⟨T, t0, t0, none, none⟩) := rfl
  have hmc : (setTemperatureOverride t0 ovs cid T none cur).overrides cid
      = some ⟨T, t0, t0, none, none⟩ := by
    rw [hm]; exact Overrides.get_set_self _ _ _
  refine ⟨rfl, ?_, ?_⟩
  · intro reads hall
    induction reads with
    | nil => exact ⟨rfl, rfl⟩
    | cons p rest ih =>
        obtain ⟨t, r⟩ := p
        have ht : t ≤ t0 + TEMPERATURE_OVERRIDE_CHECK_DELAY :=
          hall _ (List.mem_cons_self _ _)
        have hnc : ¬ (⟨T, t0, t0, none, none⟩ : TemperatureOverride).last_set
            < t - TEMPERATURE_OVERRIDE_CHECK_DELAY := by
          intro h
          exact absurd ht (by simp only at h; linarith)
        have hstep := applyOverrideCheck_active_noop (r := r) hmc rfl hnc
        have hrest := ih (fun q hq => hall q (List.mem_cons_of_mem _ hq))
        constructor
        · show ((applyOverrideCheck t _ cid false r).commands ++
              (runReads cid (applyOverrideCheck t _ cid false r).overrides rest).2) = []
          rw [hstep.1, hstep.2, hrest.1]
          rfl
        · show (runReads cid (applyOverrideCheck t _ cid false r).overrides rest).1 = _
          rw [hstep.2, hrest.2]
  · intro now r hcmd
    obtain ⟨raw, hr, hne, hls, hstore, hset⟩ :=
      applyOverrideCheck_active_cmd hmc rfl hcmd
    refine ⟨raw, hr, hne, by simp only at hls; linarith, hstore, ?_⟩
    exact hset

/-- C7 witness: an indefinite override for 21 degrees created at time 0; two
reads inside the check-delay window issue nothing, and a read at time 400
that did issue a command saw a differing raw target after the delay and only
stamped `last_set`. -/
theorem C7_witness :
    (setTemperatureOverride 0 emptyOverrides 1 21 none 20).commands.length = 1 ∧
    (runReads 1 (setTemperatureOverride 0 emptyOverrides 1 21 none 20).overrides
      [(100, exCircuitRecord), (250, exCircuitRecord)]).2 = [] ∧
    (applyOverrideCheck 400 (setTemperatureOverride 0 emptyOverrides 1 21 none 20).overrides
        1 false exCircuitRecord).storeCalled = false := by
  have h := C7_override_rate_limit 0 emptyOverrides 1 21 20
  refine ⟨h.1, (h.2.1 [(100, exCircuitRecord), (250, exCircuitRecord)] (by decide)).1, ?_⟩
  obtain ⟨raw, -, -, -, hstore, -⟩ := h.2.2 400 exCircuitRecord (by decide)
  exact hstore

/-- Helper: each digit character is the hex-value inverse of its value. -/
lemma hexVal16_digitChar16 {n : ℕ} (h : n < 16) : hexVal16 (digitChar16 n) = n := by
  interval_cases n <;> decide

/-- Helper: `digitChar16` of a decimal digit is a digit character. -/
lemma isDigitChar_digitChar16 {m : ℕ} (h : m < 10) : isDigitChar (digitChar16 m) = true := by
  interval_cases m <;> decide

/-- Helper: the length of a zero-filled digit string. -/
lemma zfill_length (w : ℕ) (l : List Char) : (zfill w l).length = max w l.length := by
  simp [zfill]
  omega

/-- Helper: appending one digit multiplies the value by the base. -/
lemma baseVal_append (b : ℕ) (l : List Char) (c : Char) :
    baseVal b (l ++ [c]) = b * baseVal b l + hexVal16 c := by
  simp [baseVal, List.foldl_append]

/-- Helper: `baseVal` is a left inverse of `baseDigits` for bases up to 16. -/
lemma baseVal_baseDigits {b : ℕ} (hb : 2 ≤ b) (hb16 : b ≤ 16) :
    ∀ n, baseVal b (baseDigits b n) = n := by
  intro n
  induction n using Nat.strong_induction_on with
  | _ n ih =>
    rw [baseDigits.eq_def, dif_neg (by omega : ¬ b < 2)]
    by_cases hn : n < b
    · rw [if_pos hn]
      have hv := hexVal16_digitChar16 (lt_of_lt_of_le hn hb16)
      simp [baseVal, hv]
    · rw [if_neg hn]
      rw [baseVal_append]
      rw [ih _ (Nat.div_lt_self (by omega) (by omega))]
      rw [hexVal16_digitChar16 ((Nat.mod_lt n (by omega)).trans_le hb16)]
      exact Nat.div_add_mod n b

/-- Helper: leading zeros do not change the value. -/
lemma baseVal_zfill (b w : ℕ) (l : List Char) : baseVal b (zfill w l) = baseVal b l := by
  suffices h : ∀ (k : ℕ) (m : List Char),
      baseVal b (List.replicate k '0' ++ m) = baseVal b m by
    simpa [zfill] using h (w - l.length) l
  intro k
  induction k with
  | zero => simp
  | succ k ih =>
      intro m
      rw [List.replicate_succ, List.cons_append]
      have h0 : hexVal16 '0' = 0 := by decide
      simp only [baseVal, List.foldl_cons, h0]
      simpa [baseVal] using ih m

/-- Helper: number of digits of `n` in base `b` on the interval
`b^k ≤ n < b^(k+1)`. -/
lemma baseDigits_length_interval {b : ℕ} (hb : 2 ≤ b) :
    ∀ k n, b ^ k ≤ n → n < b ^ (k + 1) → (baseDigits b n).length = k + 1 := by
  intro k
  induction k with
  | zero =>
      intro n h1 h2
      rw [baseDigits.eq_def, dif_neg (by omega : ¬ b < 2),
        if_pos (by simpa using h2)]
      rfl
  | succ k ih =>
      intro n h1 h2
      have hge : b ≤ n := le_trans (Nat.le_self_pow (by omega) b) h1
      rw [baseDigits.eq_def, dif_neg (by omega : ¬ b < 2), if_neg (by omega)]
      rw [List.length_append]
      have hdiv1 : b ^ k ≤ n / b :=
        (Nat.le_div_iff_mul_le (by omega)).mpr (by rw [← pow_succ]; exact h1)
      have hdiv2 : n / b < b ^ (k + 1) :=
        (Nat.div_lt_iff_lt_mul (by omega)).mpr (by rw [← pow_succ]; exact h2)
      rw [ih _ hdiv1 hdiv2]
      rfl

/-- Helper: at most `k` digits below `b^k`. -/
lemma baseDigits_length_le {b : ℕ} (hb : 2 ≤ b) {k n : ℕ} (hk : 1 ≤ k)
    (h : n < b ^ k) : (baseDigits b n).length ≤ k := by
  rcases Nat.eq_zero_or_pos n with h0 | h0
  · subst h0
    rw [baseDigits.eq_def, dif_neg (by omega : ¬ b < 2), if_pos (by omega)]
    simpa using hk
  · have hlog := Nat.log_lt_of_lt_pow (by omega) h
    have h1 := Nat.pow_log_le_self b (by omega : n ≠ 0)
    have h2 := Nat.lt_pow_succ_log_self (by omega : 1 < b) n
    rw [baseDigits_length_interval hb (Nat.log b n) n h1 h2]
    omega

/-- Helper: every character of a base-10 rendering is a digit. -/
lemma baseDigits10_digits : ∀ n, ∀ c ∈ baseDigits 10 n, isDigitChar c = true := by
  intro n
  induction n using Nat.strong_induction_on with
  | _ n ih =>
    intro c hc
    rw [baseDigits.eq_def, dif_neg (by omega : ¬ (10:ℕ) < 2)] at hc
    by_cases hn : n < 10
    · rw [if_pos hn] at hc
      simp at hc
      subst hc
      exact isDigitChar_digitChar16 hn
    · rw [if_neg hn] at hc
      rw [List.mem_append] at hc
      rcases hc with hc | hc
      · exact ih _ (Nat.div_lt_self (by omega) (by omega)) c hc
      · simp at hc
        subst hc
        exact isDigitChar_digitChar16 (Nat.mod_lt _ (by omega))

/-- Helper: zero-filling keeps every character a digit. -/
lemma zfill_digits {w : ℕ} {l : List Char} (h : ∀ c ∈ l, isDigitChar c = true) :
    ∀ c ∈ zfill w l, isDigitChar c = true := by
  intro c hc
  rw [zfill, List.mem_append] at hc
  rcases hc with hc | hc
  · rw [List.eq_of_mem_replicate hc]; decide
  · exact h c hc

/-- Helper: a digit character is not Python whitespace. -/
lemma not_pySpace_of_digit {c : Char} (h : isDigitChar c = true) :
    isPySpace c = false := by
  by_contra hc
  simp only [Bool.not_eq_false] at hc
  simp only [isPySpace, decide_eq_true_eq] at hc
  rcases hc with h1 | h1 | h1 | h1 | h1 | h1 <;> subst h1 <;>
    exact absurd h (by decide)

/-- Helper: `dropWhile isPySpace` is the identity on all-digit strings. -/
lemma dropWhile_pySpace_digits {m : List Char} (h : ∀ c ∈ m, isDigitChar c = true) :
    m.dropWhile isPySpace = m := by
  cases m with
  | nil => rfl
  | cons c t =>
      rw [List.dropWhile_cons]
      rw [not_pySpace_of_digit (h c (List.mem_cons_self _ _))]
      rfl

/-- Helper: `trimWS` is the identity on all-digit strings. -/
lemma trimWS_digits {l : List Char} (h : ∀ c ∈ l, isDigitChar c = true) :
    trimWS l = l := by
  rw [trimWS]
  rw [dropWhile_pySpace_digits h]
  rw [dropWhile_pySpace_digits (by intro c hc; exact h c (List.mem_reverse.mp hc))]
  exact List.reverse_reverse l

/-- Helper: the two digit folds agree on digit characters. -/
lemma digitsToNat_eq_baseVal10 :
    ∀ (l : List Char), (∀ c ∈ l, isDigitChar c = true) →
      digitsToNat l = baseVal 10 l := by
  suffices h : ∀ (l : List Char) (a : ℕ), (∀ c ∈ l, isDigitChar c = true) →
      List.foldl (fun a c => 10 * a + digitVal c) a l
        = List.foldl (fun a c => 10 * a + hexVal16 c) a l by
    intro l hl
    exact h l 0 hl
  intro l
  induction l with
  | nil => intro a _; rfl
  | cons c t ih =>
      intro a hl
      have hc : isDigitChar c = true := hl c (List.mem_cons_self _ _)
      have h57 : c.toNat ≤ 57 := by
        simp only [isDigitChar, Bool.and_eq_true, decide_eq_true_eq] at hc
        have := hc.2
        rw [Char.le_def] at this
        exact this
      simp only [List.foldl_cons]
      rw [show hexVal16 c = digitVal c by simp [hexVal16, digitVal, h57]]
      exact ih _ (fun d hd => hl d (List.mem_cons_of_mem _ hd))

/-- Helper: `pyInt` on a nonempty all-digit string returns its decimal value. -/
lemma pyInt_digits {l : List Char} (hne : l ≠ [])
    (h : ∀ c ∈ l, isDigitChar c = true) :
    pyInt l = some ((digitsToNat l : ℕ) : ℤ) := by
  rw [pyInt]
  rw [trimWS_digits h]
  cases l with
  | nil => exact absurd rfl hne
  | cons c t =>
      have hc : isDigitChar c = true := h c (List.mem_cons_self _ _)
      have hplus : c ≠ '+' := fun he => absurd hc (by subst he; decide)
      have hminus : c ≠ '-' := fun he => absurd hc (by subst he; decide)
      have hall : (c :: t).all isDigitChar = true := by
        rw [List.all_eq_true]; exact h
      split
      · next r heq => exact absurd (List.cons.inj heq).1 hplus
      · next r heq => exact absurd (List.cons.inj heq).1 hminus
      · next =>
          rw [parseUnsignedInt, if_pos ⟨by simp, hall⟩]

/-- Helper: positional decomposition of a 2+1+3 payload. -/
lemma slice_decomp {A S B : List Char} (hA : A.length = 2) (hS : S.length = 1)
    (hB : B.length = 3) :
    slice (A ++ S ++ B) 0 2 = A ∧ slice (A ++ S ++ B) 2 3 = S ∧
    slice (A ++ S ++ B) 3 6 = B := by
  refine ⟨?_, ?_, ?_⟩
  · rw [slice, List.drop_zero, List.append_assoc]
    rw [show (2 - 0 : ℕ) = A.length from by omega]
    exact List.take_left _ _
  · rw [slice, List.append_assoc]
    rw [show (2 : ℕ) = A.length from hA.symm]
    rw [List.drop_left]
    rw [show (3 - A.length : ℕ) = S.length from by omega]
    exact List.take_left _ _
  · rw [slice]
    rw [show (3 : ℕ) = (A ++ S).length from by simp [hA, hS]]
    rw [List.drop_left]
    rw [show (6 - (A ++ S).length : ℕ) = B.length from by simp [hA, hS, hB]]
    simp

/-- C9: the `manualTemp` payload is the two-digit zero-padded circuit id,
then the sign character `'-'` if the offset is negative and `'0'` otherwise,
then the absolute offset truncated (floor of `|offset| * 10`, not rounded) to
tenths of a degree rendered as three zero-padded digits; the two numeric
parts decode back (via the client's own integer parser) to the circuit id and
the truncated tenths. -/
theorem C9_manualTemp_encoding (cid : ℕ) (off : ℚ) (h1 : cid < 100)
    (h2 : truncTenths off < 1000) :
    (manualTempParam cid off).length = 6 ∧
    pyInt (slice (manualTempParam cid off) 0 2) = some ((cid : ℕ) : ℤ) ∧
    slice (manualTempParam cid off) 2 3 = [if off < 0 then '-' else '0'] ∧
    pyInt (slice (manualTempParam cid off) 3 6)
      = some ((truncTenths off : ℕ) : ℤ) ∧
    ((truncTenths off : ℚ) ≤ |off| * 10 ∧ |off| * 10 < (truncTenths off : ℚ) + 1) := by
  have hA_digits := zfill_digits (w := 2) (baseDigits10_digits cid)
  have hB_digits := zfill_digits (w := 3) (baseDigits10_digits (truncTenths off))
  have hAlen : (zfill 2 (baseDigits 10 cid)).length = 2 := by
    rw [zfill_length]
    have h100 : cid < 10 ^ 2 := by norm_num [h1]
    have := baseDigits_length_le (b := 10) (by omega) (k := 2) (by omega) h100
    omega
  have hBlen : (zfill 3 (baseDigits 10 (truncTenths off))).length = 3 := by
    rw [zfill_length]
    have h1000 : truncTenths off < 10 ^ 3 := by norm_num [h2]
    have := baseDigits_length_le (b := 10) (by omega) (k := 3) (by omega) h1000
    omega
  have hSlen : (if off < 0 then ['-'] else ['0']).length = 1 := by
    split <;> rfl
  have hp0 : manualTempParam cid off
      = zfill 2 (baseDigits 10 cid) ++ (if off < 0 then ['-'] else ['0'])
        ++ zfill 3 (baseDigits 10 (truncTenths off)) := rfl
  obtain ⟨hs1, hs2, hs3⟩ := slice_decomp hAlen hSlen hBlen
  have hvalA : digitsToNat (zfill 2 (baseDigits 10 cid)) = cid := by
    rw [digitsToNat_eq_baseVal10 _ hA_digits, baseVal_zfill,
      baseVal_baseDigits (by omega) (by omega)]
  have hvalB : digitsToNat (zfill 3 (baseDigits 10 (truncTenths off)))
      = truncTenths off := by
    rw [digitsToNat_eq_baseVal10 _ hB_digits, baseVal_zfill,
      baseVal_baseDigits (by omega) (by omega)]
  refine ⟨?_, ?_, ?_, ?_, ?_⟩
  · rw [hp0]
    rw [List.length_append, List.length_append, hAlen, hSlen, hBlen]
  · rw [hp0, hs1]
    rw [pyInt_digits (by rw [← List.length_pos_iff_ne_nil, hAlen]; omega) hA_digits]
    rw [hvalA]
  · rw [hp0, hs2]
    split <;> rfl
  · rw [hp0, hs3]
    rw [pyInt_digits (by rw [← List.length_pos_iff_ne_nil, hBlen]; omega) hB_digits]
    rw [hvalB]
  · have h0 : (0 : ℚ) ≤ |off| * 10 := by positivity
    have hf0 : (0 : ℤ) ≤ Int.floor (|off| * 10) := Int.floor_nonneg.mpr h0
    have hcast : ((truncTenths off : ℕ) : ℚ) = ((Int.floor (|off| * 10) : ℤ) : ℚ) := by
      rw [truncTenths]
      exact_mod_cast congrArg (fun z : ℤ => (z : ℚ)) (Int.toNat_of_nonneg hf0)
    constructor
    · rw [hcast]; exact Int.floor_le _
    · rw [hcast]; exact Int.lt_floor_add_one _

/-- C9 witness: circuit 7 with offset −2.37 °C encodes as `"07-023"`: the
tenths are truncated to 23, not rounded to 24. -/
theorem C9_witness :
    (manualTempParam 7 (-237/100)).length = 6 ∧
    pyInt (slice (manualTempParam 7 (-237/100)) 0 2) = some 7 ∧
    slice (manualTempParam 7 (-237/100)) 2 3 = ['-'] ∧
    pyInt (slice (manualTempParam 7 (-237/100)) 3 6) = some 23 ∧
    truncTenths (-237/100 : ℚ) = 23 := by
  have h := C9_manualTemp_encoding 7 (-237/100) (by norm_num) (by decide)
  have h23 : truncTenths (-237/100 : ℚ) = 23 := by decide
  refine ⟨h.1, by exact_mod_cast h.2.1, ?_, ?_, h23⟩
  · have h3 := h.2.2.1
    rw [if_pos (by norm_num : (-237/100 : ℚ) < 0)] at h3
    exact h3
  · have h4 := h.2.2.2.1
    rw [h23] at h4
    exact_mod_cast h4

/-- Helper: XOR with a value below 128 does not change the quotient by 128. -/
lemma xor_div_128 {x s : ℕ} (hs : s < 128) : (x ^^^ s) / 128 = x / 128 := by
  have hdiv : ∀ n : ℕ, n / 128 = n >>> 7 := fun n => by
    rw [Nat.shiftRight_eq_div_pow]
  rw [hdiv, hdiv]
  apply Nat.eq_of_testBit_eq
  intro i
  rw [Nat.testBit_shiftRight, Nat.testBit_shiftRight, Nat.testBit_xor]
  have h27 : (128 : ℕ) ≤ 2 ^ (7 + i) := by
    calc (128 : ℕ) = 2 ^ 7 := by norm_num
      _ ≤ 2 ^ (7 + i) := Nat.pow_le_pow_right (by norm_num) (by omega)
  rw [Nat.testBit_lt_two_pow (lt_of_lt_of_le hs h27)]
  simp

/-- Helper: two code points with the same quotient by 128 produce hash blocks
of the same length. -/
lemma block_length_eq {n m : ℕ} (hn : n < 4294967296) (hm : m < 4294967296)
    (h : n / 128 = m / 128) :
    (zfill 2 (baseDigits 16 n)).length = (zfill 2 (baseDigits 16 m)).length := by
  rw [zfill_length, zfill_length]
  have len_int : ∀ (k p : ℕ), 16 ^ k ≤ p → p < 16 ^ (k + 1) →
      (baseDigits 16 p).length = k + 1 :=
    fun k p => baseDigits_length_interval (by omega) k p
  by_cases c1 : n < 256
  · have l1 : (baseDigits 16 n).length ≤ 2 :=
      baseDigits_length_le (by omega) (by omega) (by norm_num; omega)
    have l2 : (baseDigits 16 m).length ≤ 2 :=
      baseDigits_length_le (by omega) (by omega) (by norm_num; omega)
    omega
  · by_cases c2 : n < 4096
    · rw [len_int 2 n (by norm_num; omega) (by norm_num; omega),
          len_int 2 m (by norm_num; omega) (by norm_num; omega)]
    · by_cases c3 : n < 65536
      · rw [len_int 3 n (by norm_num; omega) (by norm_num; omega),
            len_int 3 m (by norm_num; omega) (by norm_num; omega)]
      · by_cases c4 : n < 1048576
        · rw [len_int 4 n (by norm_num; omega) (by norm_num; omega),
              len_int 4 m (by norm_num; omega) (by norm_num; omega)]
        · by_cases c5 : n < 16777216
          · rw [len_int 5 n (by norm_num; omega) (by norm_num; omega),
                len_int 5 m (by norm_num; omega) (by norm_num; omega)]
          · by_cases c6 : n < 268435456
            · rw [len_int 6 n (by norm_num; omega) (by norm_num; omega),
                  len_int 6 m (by norm_num; omega) (by norm_num; omega)]
            · rw [len_int 7 n (by norm_num; omega) (by norm_num; omega),
                  len_int 7 m (by norm_num; omega) (by norm_num; omega)]

/-- Helper: a hash block determines its code point. -/
lemma block_inj {n m : ℕ}
    (hb : zfill 2 (baseDigits 16 n) = zfill 2 (baseDigits 16 m)) : n = m := by
  have h1 := congrArg (baseVal 16) hb
  rw [baseVal_zfill, baseVal_zfill, baseVal_baseDigits (by omega) (by omega),
    baseVal_baseDigits (by omega) (by omega)] at h1
  exact h1

/-- C6 (amended): the day-seeded auth hash is deterministic (the model is a
pure function of the day and the input), and for every *non-empty* input
string, the hashes computed on two different valid days of the month (both in
[1,31]) differ.  For the empty string the hash is `""` on every day, so the
claim's universal day-difference property fails there. -/
theorem C6_hash_day (d1 d2 : ℕ) (v : List Char) (h1a : 1 ≤ d1) (h1b : d1 ≤ 31)
    (h2a : 1 ≤ d2) (h2b : d2 ≤ 31) (hne : d1 ≠ d2) :
    bmr_hash d1 v = bmr_hash d1 v ∧
    (v ≠ [] → bmr_hash d1 v ≠ bmr_hash d2 v) := by
  refine ⟨rfl, ?_⟩
  intro hv heq
  obtain ⟨c, rest, rfl⟩ : ∃ c rest, v = c :: rest := by
    cases v with
    | nil => exact absurd rfl hv
    | cons c rest => exact ⟨c, rest, rfl⟩
  rw [bmr_hash, bmr_hash] at heq
  simp only [List.map_cons, List.flatten_cons] at heq
  have hs1 : d1 <<< 2 < 128 := by simp [Nat.shiftLeft_eq]; omega
  have hs2 : d2 <<< 2 < 128 := by simp [Nat.shiftLeft_eq]; omega
  have hsne : d1 <<< 2 ≠ d2 <<< 2 := by simp [Nat.shiftLeft_eq]; omega
  have htne : c.toNat ^^^ (d1 <<< 2) ≠ c.toNat ^^^ (d2 <<< 2) := by
    intro h
    apply hsne
    calc d1 <<< 2 = c.toNat ^^^ (c.toNat ^^^ (d1 <<< 2)) := by
          rw [← Nat.xor_assoc, Nat.xor_self, Nat.zero_xor]
      _ = c.toNat ^^^ (c.toNat ^^^ (d2 <<< 2)) := by rw [h]
      _ = d2 <<< 2 := by rw [← Nat.xor_assoc, Nat.xor_self, Nat.zero_xor]
  have hdivq : (c.toNat ^^^ (d1 <<< 2)) / 128 = (c.toNat ^^^ (d2 <<< 2)) / 128 := by
    rw [xor_div_128 hs1, xor_div_128 hs2]
  have hcb : c.toNat < 4294967296 := c.val.toNat_lt
  have hb1 : c.toNat ^^^ (d1 <<< 2) < 4294967296 := by
    have := Nat.xor_lt_two_pow (n := 32) (by norm_num; omega : c.toNat < 2 ^ 32)
      (by norm_num; omega : d1 <<< 2 < 2 ^ 32)
    norm_num at this
    omega
  have hb2 : c.toNat ^^^ (d2 <<< 2) < 4294967296 := by
    have := Nat.xor_lt_two_pow (n := 32) (by norm_num; omega : c.toNat < 2 ^ 32)
      (by norm_num; omega : d2 <<< 2 < 2 ^ 32)
    norm_num at this
    omega
  have hlen : (bmrHashChar d1 c).length = (bmrHashChar d2 c).length := by
    rw [bmrHashChar, bmrHashChar]
    exact block_length_eq hb1 hb2 hdivq
  obtain ⟨hblock, -⟩ := List.append_inj heq hlen
  exact htne (block_inj hblock)

/-- C6: the claim, as stated, is false at the empty input string: day 5 and
day 6 are different valid days of the month, yet the hash of `""` is `""` on
both. -/
theorem C6_counterexample :
    bmr_hash 5 [] = bmr_hash 6 [] ∧ (5 : ℕ) ≠ 6 ∧
    1 ≤ 5 ∧ 5 ≤ 31 ∧ 1 ≤ 6 ∧ 6 ≤ 31 := by decide

/-- C6 witness: the amended theorem at the one-character string `"a"` and
days 1 and 2. -/
theorem C6_witness : bmr_hash 1 ['a'] ≠ bmr_hash 2 ['a'] :=
  (C6_hash_day 1 2 ['a'] (by decide) (by decide) (by decide) (by decide)
    (by decide)).2 (by decide)

end Theorems

end BmrClient
